import Mathlib

/-!
Verification of the vote-aggregation core of `poll_bot.py` (a Telegram poll
bot), checked against its design document.  The bot keeps two pieces of in-memory state, mirrored to disk:

* `settings` — a record with the bound group chat id (`group_chat_id`) and the
  id of the most recently created poll (`latest_poll_id`);
* `votes` — a dictionary mapping a poll id to a ballot dictionary, which maps
  a voter display name to the list of chosen option indices.

Python dictionaries are modelled as association lists with the usual
insertion-ordered semantics: an update of an existing key replaces its value
in place, an update of a fresh key appends the binding at the end.  This is
exactly the observable behaviour of a CPython `dict` (insertion order is
preserved, re-assignment keeps the position).
-/

namespace PollBot

/-- A ballot: `voter display name ↦ chosen option indices`
(Python: the inner `dict` of `votes`). -/
abbrev Ballot := List (String × List Nat)

/-- The vote ledger: `poll id ↦ ballot`
(Python: the module-level `votes` dictionary). -/
abbrev Votes := List (String × Ballot)

/-- Dictionary lookup (`d.get(k)` / `d[k]`): the value of the first (and, for
well-formed dictionaries, only) binding of `k`. -/
def dictGet? {α : Type} (k : String) : List (String × α) → Option α
  | [] => none
  | (k', v) :: rest => if k' = k then some v else dictGet? k rest

/-- Dictionary update (`d[k] = v`): replace the binding of `k` in place when
present, append it otherwise. -/
def dictInsert {α : Type} (k : String) (v : α) : List (String × α) → List (String × α)
  | [] => [(k, v)]
  | (k', v') :: rest =>
      if k' = k then (k, v) :: rest else (k', v') :: dictInsert k v rest

/-- `votes.setdefault(pid, {})` — the ledger part of `create_poll`
(src/poll_bot.py line 124): create an empty ballot entry for `pid` if absent,
leave the dictionary untouched otherwise.  This is the spec's `openPoll`. -/
def openPoll (votes : Votes) (pid : String) : Votes :=
  match dictGet? pid votes with
  | some _ => votes
  | none => dictInsert pid [] votes

/-- `votes.setdefault(pid, {})[name] = ans.option_ids[:]` — the ledger part of
`on_poll_answer` (src/poll_bot.py line 135): make sure `pid` has an entry and
replace the voter's ballot with the new option ids.  This is the spec's
`recordAnswer`. -/
def recordAnswer (votes : Votes) (pid name : String) (ids : List Nat) : Votes :=
  dictInsert pid (dictInsert name ids ((dictGet? pid votes).getD [])) votes

/-- Python's `sorted` on a list of strings (lexicographic by code point),
modelled by insertion sort with the lexicographic order on `String`. -/
def sortedStrings (l : List String) : List String :=
  List.insertionSort (· ≤ ·) l

/-- The spec's `SummaryView`: the three category name lists of a summary. -/
structure SummaryView where
  playing : List String
  notPlaying : List String
  fiftyFifty : List String
deriving DecidableEq, Repr

/-- The aggregation part of `_build_summary_text` (src/poll_bot.py lines
141-144): `data = votes.get(pid, {})`, then each category is the sorted list
of voters whose option ids contain the category's index.  This is the spec's
`summarize`. -/
def summarize (votes : Votes) (pid : String) : SummaryView where
  playing :=
    sortedStrings (((((dictGet? pid votes).getD []).filter (fun p => 0 ∈ p.2))).map Prod.fst)
  notPlaying :=
    sortedStrings (((((dictGet? pid votes).getD []).filter (fun p => 1 ∈ p.2))).map Prod.fst)
  fiftyFifty :=
    sortedStrings (((((dictGet? pid votes).getD []).filter (fun p => 2 ∈ p.2))).map Prod.fst)

/-- `_build_summary_text` (src/poll_bot.py lines 140-149), translated whole:
header line plus one line per category, joined with a newline. -/
def build_summary_text (votes : Votes) (pid : String) : String :=
  let data := (dictGet? pid votes).getD []
  let going := sortedStrings ((data.filter (fun p => 0 ∈ p.2)).map Prod.fst)
  let not_going := sortedStrings ((data.filter (fun p => 1 ∈ p.2)).map Prod.fst)
  let fifty := sortedStrings ((data.filter (fun p => 2 ∈ p.2)).map Prod.fst)
  String.intercalate "\n"
    [ "📊 <b>Итоги голосования (воскресная игра)</b>"
    , "✅ Играют (" ++ toString going.length ++ "): " ++
        (if going = [] then "никто" else String.intercalate ", " going)
    , "❌ Не играют (" ++ toString not_going.length ++ "): " ++
        (if not_going = [] then "никто" else String.intercalate ", " not_going)
    , "🤷 50/50 (" ++ toString fifty.length ++ "): " ++
        (if fifty = [] then "никто" else String.intercalate ", " fifty) ]

/-- The `settings` record (Python: the `settings` dictionary with keys
`group_chat_id` and `latest_poll_id`; a missing key reads as `None`). -/
structure Settings where
  group_chat_id : Option Int
  latest_poll_id : Option String
deriving DecidableEq, Repr

/-- The whole in-memory state of the bot core. -/
structure BotState where
  settings : Settings
  votes : Votes
deriving DecidableEq, Repr

/-- Python truthiness of an optional integer: `None` and `0` are falsy. -/
def intTruthy : Option Int → Bool
  | none => false
  | some n => n != 0

/-- `chat_id or settings.get("group_chat_id") or (int(os.getenv("GROUP_CHAT_ID")) ...)`
(src/poll_bot.py lines 106-110 and 153-157), followed by the
`if not target_chat: return` guard: the first truthy value of the explicit
override, the bound group chat and the environment default, or `none` when
all three are falsy (in which case the operation is skipped). -/
def resolveTarget (chatId groupChatId envGroupChatId : Option Int) : Option Int :=
  if intTruthy chatId then chatId
  else if intTruthy groupChatId then groupChatId
  else if intTruthy envGroupChatId then envGroupChatId
  else none

/-- `setgroup` (src/poll_bot.py lines 98-102): bind the current chat. -/
def setgroup (st : BotState) (chatId : Int) : BotState :=
  { st with settings := { st.settings with group_chat_id := some chatId } }

/-- `create_poll` (src/poll_bot.py lines 105-126), state part: if a target
chat resolves, record the id of the newly created poll in the settings and
open its (empty, unless already present) ledger entry; otherwise skip. -/
def create_poll (st : BotState) (chatId env : Option Int) (newPid : String) : BotState :=
  match resolveTarget chatId st.settings.group_chat_id env with
  | none => st
  | some _ =>
      { settings := { st.settings with latest_poll_id := some newPid }
        votes := openPoll st.votes newPid }

/-- The voter display name derivation of `on_poll_answer` (src/poll_bot.py
lines 132-134): the full name, suffixed with " (@username)" when the user has
a (non-empty, hence truthy) username. -/
def displayName (fullName : String) (username : Option String) : String :=
  match username with
  | some u => if u = "" then fullName else fullName ++ " (@" ++ u ++ ")"
  | none => fullName

/-- `on_poll_answer` (src/poll_bot.py lines 129-137), state part: record the
answer under the derived display name. -/
def on_poll_answer (st : BotState) (pid fullName : String) (username : Option String)
    (ids : List Nat) : BotState :=
  { st with votes := recordAnswer st.votes pid (displayName fullName username) ids }

/-- What `post_summary` sends to the chat. -/
inductive SentMessage where
  | skip : SentMessage
  | plain (chat : Int) (text : String) : SentMessage
  | html (chat : Int) (text : String) : SentMessage
deriving DecidableEq, Repr

/-- The literal "no data yet" text of src/poll_bot.py line 164. -/
def noDataText : String := "Пока нет данных для статистики."

/-- `post_summary` (src/poll_bot.py lines 152-168): skip when no target chat
resolves; send the "no data yet" plain message when `latest_poll_id` is unset
(Python falsy: missing or the empty string); otherwise send the rendered
summary with HTML parse mode. -/
def post_summary (st : BotState) (chatId env : Option Int) : SentMessage :=
  match resolveTarget chatId st.settings.group_chat_id env with
  | none => .skip
  | some c =>
      match st.settings.latest_poll_id with
      | none => .plain c noDataText
      | some pid =>
          if pid = "" then .plain c noDataText
          else .html c (build_summary_text st.votes pid)

/-- The state at first run: empty settings, empty ledger. -/
def initState : BotState :=
  { settings := { group_chat_id := none, latest_poll_id := none }, votes := [] }

/-- One event processed by the core: a chat binding, a poll creation, an
answer, or a summary request (which does not change the state). -/
inductive Step : BotState → BotState → Prop where
  | bindGroup (st : BotState) (c : Int) : Step st (setgroup st c)
  | createPoll (st : BotState) (chatId env : Option Int) (pid : String) :
      Step st (create_poll st chatId env pid)
  | pollAnswer (st : BotState) (pid fullName : String) (username : Option String)
      (ids : List Nat) : Step st (on_poll_answer st pid fullName username ids)
  | summaryRequest (st : BotState) : Step st st

/-- A state reachable from the initial state by the core's operations. -/
def Reachable (st : BotState) : Prop :=
  Relation.ReflTransGen Step initState st

/-- A ballot is well formed when no voter name is bound twice (always true of
a Python `dict`). -/
def BallotWF (b : Ballot) : Prop := (b.map Prod.fst).Nodup

/-- The ledger is well formed when no poll id is bound twice and every ballot
is well formed (always true of nested Python `dict`s). -/
def VotesWF (v : Votes) : Prop :=
  (v.map Prod.fst).Nodup ∧ ∀ p ∈ v, BallotWF p.2

instance (b : Ballot) : Decidable (BallotWF b) :=
  inferInstanceAs (Decidable ((b.map Prod.fst).Nodup))

instance (v : Votes) : Decidable (VotesWF v) :=
  inferInstanceAs (Decidable (_ ∧ _))

/-- One category line of the structural rendering contract: the category
label, the count in parentheses, and the comma-joined names, with the literal
"nobody" placeholder ("никто") replacing the name list when the category is
empty. -/
def categoryLine (label : String) (names : List String) : String :=
  label ++ " (" ++ toString names.length ++ "): " ++
    (if names = [] then "никто" else String.intercalate ", " names)

/-- The header line of the rendered summary. -/
def summaryHeader : String := "📊 <b>Итоги голосования (воскресная игра)</b>"

/-- The spec's settings invariant: once `latest_poll_id` is set, it is a key
of the vote ledger. -/
def LatestInLedger (st : BotState) : Prop :=
  ∀ pid, st.settings.latest_poll_id = some pid → (dictGet? pid st.votes).isSome = true

/-! ### Dictionary lemmas -/

theorem dictGet?_dictInsert_self {α : Type} (k : String) (v : α)
    (d : List (String × α)) : dictGet? k (dictInsert k v d) = some v := by
  induction d with
  | nil => simp [dictGet?, dictInsert]
  | cons hd tl ih =>
      obtain ⟨k', v'⟩ := hd
      by_cases h : k' = k <;> simp [dictGet?, dictInsert, h, ih]

theorem dictGet?_dictInsert_ne {α : Type} (k q : String) (v : α)
    (d : List (String × α)) (h : q ≠ k) :
    dictGet? q (dictInsert k v d) = dictGet? q d := by
  have h' : k ≠ q := Ne.symm h
  induction d with
  | nil => simp [dictGet?, dictInsert, h']
  | cons hd tl ih =>
      obtain ⟨k', v'⟩ := hd
      by_cases hk : k' = k
      · subst hk
        simp [dictGet?, dictInsert, h']
      · simp only [dictInsert, if_neg hk, dictGet?]
        rw [ih]

theorem dictInsert_dictInsert_same {α : Type} (k : String) (v w : α)
    (d : List (String × α)) :
    dictInsert k v (dictInsert k w d) = dictInsert k v d := by
  induction d with
  | nil => simp [dictInsert]
  | cons hd tl ih =>
      obtain ⟨k', v'⟩ := hd
      by_cases h : k' = k
      · subst h
        simp [dictInsert]
      · simp [dictInsert, h, ih]

theorem mem_keys_dictInsert {α : Type} (k x : String) (v : α)
    (d : List (String × α)) :
    x ∈ (dictInsert k v d).map Prod.fst ↔ x = k ∨ x ∈ d.map Prod.fst := by
  induction d with
  | nil => simp [dictInsert, eq_comm]
  | cons hd tl ih =>
      obtain ⟨k', v'⟩ := hd
      by_cases h : k' = k
      · subst h
        simp [dictInsert, eq_comm]
      · simp [dictInsert, h, ih]
        tauto

theorem nodup_keys_dictInsert {α : Type} (k : String) (v : α)
    (d : List (String × α)) (h : (d.map Prod.fst).Nodup) :
    ((dictInsert k v d).map Prod.fst).Nodup := by
  induction d with
  | nil => simp [dictInsert]
  | cons hd tl ih =>
      obtain ⟨k', v'⟩ := hd
      simp only [List.map_cons, List.nodup_cons] at h
      by_cases hk : k' = k
      · subst hk
        simpa [dictInsert] using h
      · simp only [dictInsert, if_neg hk, List.map_cons]
        refine List.nodup_cons.mpr ⟨?_, ih h.2⟩
        simp only [mem_keys_dictInsert]
        rintro (rfl | hmem)
        · exact hk rfl
        · exact h.1 hmem

theorem mem_dictInsert_elim {α : Type} {k : String} {v : α}
    {d : List (String × α)} {p : String × α} (h : p ∈ dictInsert k v d) :
    p = (k, v) ∨ p ∈ d := by
  induction d with
  | nil => simpa [dictInsert] using h
  | cons hd tl ih =>
      obtain ⟨k', v'⟩ := hd
      by_cases hk : k' = k
      · subst hk
        simp [dictInsert] at h ⊢
        tauto
      · simp only [dictInsert, if_neg hk, List.mem_cons] at h
        rcases h with h | h
        · exact Or.inr (List.mem_cons.mpr (Or.inl h))
        · rcases ih h with h | h
          · exact Or.inl h
          · exact Or.inr (List.mem_cons.mpr (Or.inr h))

theorem dictGet?_eq_some_of_mem {α : Type} {d : List (String × α)}
    (hnd : (d.map Prod.fst).Nodup) {k : String} {v : α} (h : (k, v) ∈ d) :
    dictGet? k d = some v := by
  induction d with
  | nil => simp at h
  | cons hd tl ih =>
      obtain ⟨k', v'⟩ := hd
      simp only [List.map_cons, List.nodup_cons] at hnd
      rcases List.mem_cons.mp h with h | h
      · obtain ⟨rfl, rfl⟩ := Prod.mk.injEq .. ▸ h
        simp [dictGet?]
      · have hne : k' ≠ k := by
          rintro rfl
          exact hnd.1 (List.mem_map.mpr ⟨(k', v), h, rfl⟩)
        simpa [dictGet?, hne] using ih hnd.2 h

theorem mem_of_dictGet?_eq_some {α : Type} {d : List (String × α)}
    {k : String} {v : α} (h : dictGet? k d = some v) : (k, v) ∈ d := by
  induction d with
  | nil => simp [dictGet?] at h
  | cons hd tl ih =>
      obtain ⟨k', v'⟩ := hd
      by_cases hk : k' = k
      · subst hk
        simp only [dictGet?, if_pos, Option.some.injEq] at h
        subst h
        exact List.mem_cons_self ..
      · simp only [dictGet?, if_neg hk] at h
        exact List.mem_cons.mpr (Or.inr (ih h))

theorem dictGet?_eq_some_iff_mem {α : Type} {d : List (String × α)}
    (hnd : (d.map Prod.fst).Nodup) (k : String) (v : α) :
    dictGet? k d = some v ↔ (k, v) ∈ d :=
  ⟨mem_of_dictGet?_eq_some, dictGet?_eq_some_of_mem hnd⟩

/-! ### Ledger operation lemmas -/

theorem dictGet?_recordAnswer_self (votes : Votes) (pid name : String) (ids : List Nat) :
    dictGet? pid (recordAnswer votes pid name ids)
      = some (dictInsert name ids ((dictGet? pid votes).getD [])) :=
  dictGet?_dictInsert_self ..

theorem dictGet?_recordAnswer_ne (votes : Votes) (pid name : String) (ids : List Nat)
    (q : String) (h : q ≠ pid) :
    dictGet? q (recordAnswer votes pid name ids) = dictGet? q votes :=
  dictGet?_dictInsert_ne _ _ _ _ h

theorem dictGet?_ballot_recordAnswer_self (votes : Votes) (pid name : String)
    (ids : List Nat) :
    dictGet? name ((dictGet? pid (recordAnswer votes pid name ids)).getD [])
      = some ids := by
  rw [dictGet?_recordAnswer_self]
  simp only [Option.getD_some]
  exact dictGet?_dictInsert_self ..

theorem dictGet?_openPoll_self (votes : Votes) (pid : String) :
    dictGet? pid (openPoll votes pid) = some ((dictGet? pid votes).getD []) := by
  cases h : dictGet? pid votes with
  | none => simp [openPoll, h, dictGet?_dictInsert_self]
  | some b => simp [openPoll, h]

theorem dictGet?_openPoll_ne (votes : Votes) (pid q : String) (h : q ≠ pid) :
    dictGet? q (openPoll votes pid) = dictGet? q votes := by
  cases hc : dictGet? pid votes with
  | none => simp [openPoll, hc, dictGet?_dictInsert_ne _ _ _ _ h]
  | some b => simp [openPoll, hc]

theorem dictGet?_recordAnswer_isSome (votes : Votes) (pid name : String)
    (ids : List Nat) (q : String) (h : (dictGet? q votes).isSome = true) :
    (dictGet? q (recordAnswer votes pid name ids)).isSome = true := by
  by_cases hq : q = pid
  · subst hq
    rw [dictGet?_recordAnswer_self]
    rfl
  · rw [dictGet?_recordAnswer_ne _ _ _ _ _ hq]
    exact h

theorem recordAnswer_recordAnswer (votes : Votes) (pid name : String)
    (ids1 ids2 : List Nat) :
    recordAnswer (recordAnswer votes pid name ids1) pid name ids2
      = recordAnswer votes pid name ids2 := by
  unfold recordAnswer
  rw [dictGet?_dictInsert_self]
  simp only [Option.getD_some]
  rw [dictInsert_dictInsert_same, dictInsert_dictInsert_same]

/-! ### Well-formedness lemmas -/

theorem ballotWF_dictInsert (name : String) (ids : List Nat) (b : Ballot)
    (h : BallotWF b) : BallotWF (dictInsert name ids b) :=
  nodup_keys_dictInsert _ _ _ h

theorem ballotWF_getD (votes : Votes) (pid : String) (h : VotesWF votes) :
    BallotWF ((dictGet? pid votes).getD []) := by
  cases hc : dictGet? pid votes with
  | none => simp [BallotWF]
  | some b =>
      simpa using h.2 _ (mem_of_dictGet?_eq_some hc)

theorem votesWF_recordAnswer (votes : Votes) (pid name : String) (ids : List Nat)
    (h : VotesWF votes) : VotesWF (recordAnswer votes pid name ids) := by
  refine ⟨nodup_keys_dictInsert _ _ _ h.1, ?_⟩
  intro p hp
  rcases mem_dictInsert_elim hp with rfl | hp
  · exact ballotWF_dictInsert _ _ _ (ballotWF_getD votes pid h)
  · exact h.2 p hp

/-! ### Summary membership lemmas -/

theorem sorted_sortedStrings (l : List String) :
    List.Sorted (· ≤ ·) (sortedStrings l) :=
  List.sorted_insertionSort _ l

theorem mem_sortedFilter_iff (data : Ballot) (hwf : BallotWF data) (c : Nat)
    (u : String) :
    u ∈ sortedStrings ((data.filter (fun p => c ∈ p.2)).map Prod.fst)
      ↔ ∃ o, dictGet? u data = some o ∧ c ∈ o := by
  rw [sortedStrings, List.mem_insertionSort]
  simp only [List.mem_map, List.mem_filter, decide_eq_true_eq]
  constructor
  · rintro ⟨⟨a, b⟩, ⟨hmem, hc⟩, rfl⟩
    exact ⟨b, dictGet?_eq_some_of_mem hwf hmem, hc⟩
  · rintro ⟨o, hget, hc⟩
    exact ⟨(u, o), ⟨mem_of_dictGet?_eq_some hget, hc⟩, rfl⟩

theorem mem_summarize_playing (votes : Votes) (pid u : String)
    (h : BallotWF ((dictGet? pid votes).getD [])) :
    u ∈ (summarize votes pid).playing
      ↔ ∃ o, dictGet? u ((dictGet? pid votes).getD []) = some o ∧ 0 ∈ o :=
  mem_sortedFilter_iff _ h 0 u

theorem mem_summarize_notPlaying (votes : Votes) (pid u : String)
    (h : BallotWF ((dictGet? pid votes).getD [])) :
    u ∈ (summarize votes pid).notPlaying
      ↔ ∃ o, dictGet? u ((dictGet? pid votes).getD []) = some o ∧ 1 ∈ o :=
  mem_sortedFilter_iff _ h 1 u

theorem mem_summarize_fiftyFifty (votes : Votes) (pid u : String)
    (h : BallotWF ((dictGet? pid votes).getD [])) :
    u ∈ (summarize votes pid).fiftyFifty
      ↔ ∃ o, dictGet? u ((dictGet? pid votes).getD []) = some o ∧ 2 ∈ o :=
  mem_sortedFilter_iff _ h 2 u

/-! ### The settings invariant is preserved by every step -/

theorem step_preserves_latestInLedger {a b : BotState} (hstep : Step a b)
    (ha : LatestInLedger a) : LatestInLedger b := by
  cases hstep with
  | bindGroup c =>
      intro pid hp
      exact ha pid hp
  | createPoll chatId env newPid =>
      intro pid hp
      simp only [create_poll] at hp ⊢
      cases hres : resolveTarget chatId a.settings.group_chat_id env with
      | none =>
          rw [hres] at hp
          exact ha pid hp
      | some c =>
          rw [hres] at hp
          have hp' : newPid = pid := by simpa using hp
          subst hp'
          show (dictGet? newPid (openPoll a.votes newPid)).isSome = true
          rw [dictGet?_openPoll_self]
          rfl
  | pollAnswer pid' fullName username ids =>
      intro pid hp
      exact dictGet?_recordAnswer_isSome _ _ _ _ _ (ha pid hp)
  | summaryRequest =>
      exact ha

theorem latestInLedger_of_reachable {st : BotState} (h : Reachable st) :
    LatestInLedger st := by
  induction h with
  | refl =>
      intro pid hp
      simp [initState] at hp
  | tail _ hstep ih =>
      exact step_preserves_latestInLedger hstep ih

/-! ### Claims -/

/-- C1: recording an answer for the same `(pollId, voterDisplayName)` twice
with differing option indices leaves exactly the state of the last write: the
ballot is fully replaced (the double update equals the single last update as
a whole ledger, hence so does `summarize`), and the voter appears in each of
the three lists of `summarize pid` exactly when the last recorded indices
select it. -/
theorem recordAnswer_last_write_wins (votes : Votes) (pid name : String)
    (ids1 ids2 : List Nat) (hwf : VotesWF votes) :
    recordAnswer (recordAnswer votes pid name ids1) pid name ids2
        = recordAnswer votes pid name ids2
    ∧ (name ∈ (summarize (recordAnswer (recordAnswer votes pid name ids1) pid name ids2) pid).playing
        ↔ 0 ∈ ids2)
    ∧ (name ∈ (summarize (recordAnswer (recordAnswer votes pid name ids1) pid name ids2) pid).notPlaying
        ↔ 1 ∈ ids2)
    ∧ (name ∈ (summarize (recordAnswer (recordAnswer votes pid name ids1) pid name ids2) pid).fiftyFifty
        ↔ 2 ∈ ids2) := by
  have hst := recordAnswer_recordAnswer votes pid name ids1 ids2
  rw [hst]
  have hwf2 : VotesWF (recordAnswer votes pid name ids2) :=
    votesWF_recordAnswer _ _ _ _ hwf
  have hb : BallotWF ((dictGet? pid (recordAnswer votes pid name ids2)).getD []) :=
    ballotWF_getD _ _ hwf2
  refine ⟨rfl, ?_, ?_, ?_⟩
  · rw [mem_summarize_playing _ _ _ hb, dictGet?_ballot_recordAnswer_self]
    simp
  · rw [mem_summarize_notPlaying _ _ _ hb, dictGet?_ballot_recordAnswer_self]
    simp
  · rw [mem_summarize_fiftyFifty _ _ _ hb, dictGet?_ballot_recordAnswer_self]
    simp

theorem recordAnswer_last_write_wins_witness :
    recordAnswer (recordAnswer [] "p1" "Alice" [0]) "p1" "Alice" [1]
      = recordAnswer [] "p1" "Alice" [1] :=
  (recordAnswer_last_write_wins [] "p1" "Alice" [0] [1] (by decide)).1

/-- C2: for a poll id absent from the ledger, `summarize` is the empty
`SummaryView` (all three lists empty); being a total function, it raises no
error. -/
theorem summarize_absent_poll (votes : Votes) (pid : String)
    (h : dictGet? pid votes = none) :
    summarize votes pid = { playing := [], notPlaying := [], fiftyFifty := [] } := by
  simp [summarize, h, sortedStrings, List.insertionSort]

theorem summarize_absent_poll_witness :
    summarize [] "unknown" = { playing := [], notPlaying := [], fiftyFifty := [] } :=
  summarize_absent_poll [] "unknown" rfl

/-- C3: for every (well-formed, i.e. duplicate-free, as every Python dict is)
ledger state and every poll id, `playing` holds exactly the voters whose
recorded indices contain 0, `notPlaying` exactly those containing 1,
`fiftyFifty` exactly those containing 2, and each list is sorted in the
lexicographic string order; a voter whose indices contain several of 0,1,2
satisfies several of the membership equivalences, hence appears in each
corresponding list. -/
theorem summarize_characterization (votes : Votes) (pid : String)
    (hwf : VotesWF votes) :
    (∀ u, u ∈ (summarize votes pid).playing
        ↔ ∃ o, dictGet? u ((dictGet? pid votes).getD []) = some o ∧ 0 ∈ o)
    ∧ (∀ u, u ∈ (summarize votes pid).notPlaying
        ↔ ∃ o, dictGet? u ((dictGet? pid votes).getD []) = some o ∧ 1 ∈ o)
    ∧ (∀ u, u ∈ (summarize votes pid).fiftyFifty
        ↔ ∃ o, dictGet? u ((dictGet? pid votes).getD []) = some o ∧ 2 ∈ o)
    ∧ List.Sorted (· ≤ ·) (summarize votes pid).playing
    ∧ List.Sorted (· ≤ ·) (summarize votes pid).notPlaying
    ∧ List.Sorted (· ≤ ·) (summarize votes pid).fiftyFifty := by
  have hb : BallotWF ((dictGet? pid votes).getD []) := ballotWF_getD _ _ hwf
  exact ⟨fun u => mem_summarize_playing _ _ u hb,
    fun u => mem_summarize_notPlaying _ _ u hb,
    fun u => mem_summarize_fiftyFifty _ _ u hb,
    sorted_sortedStrings _, sorted_sortedStrings _, sorted_sortedStrings _⟩

theorem summarize_characterization_witness :
    List.Sorted (· ≤ ·)
      (summarize [("p1", [("Bob", [0]), ("Alice", [0])])] "p1").playing :=
  (summarize_characterization [("p1", [("Bob", [0]), ("Alice", [0])])] "p1"
    (by decide)).2.2.2.1

/-- C4: opening a poll whose id already has a ledger entry is a no-op on the
whole ledger, so in particular the entry's recorded ballots are kept. -/
theorem openPoll_idempotent (votes : Votes) (pid : String) (b : Ballot)
    (h : dictGet? pid votes = some b) :
    openPoll votes pid = votes ∧ dictGet? pid (openPoll votes pid) = some b := by
  have hop : openPoll votes pid = votes := by
    simp [openPoll, h]
  exact ⟨hop, by rw [hop]; exact h⟩

theorem openPoll_idempotent_witness :
    openPoll [("p1", [("Alice", [0])])] "p1" = [("p1", [("Alice", [0])])] :=
  (openPoll_idempotent [("p1", [("Alice", [0])])] "p1" [("Alice", [0])] rfl).1

/-- C5: recording an answer for a poll id with no ledger entry implicitly
creates the entry, holding exactly that voter's ballot, and `summarize` then
lists the voter exactly in the categories selected by the recorded indices;
no prior `openPoll` is required and the answer is not rejected. -/
theorem recordAnswer_implicit_creation (votes : Votes) (pid name : String)
    (ids : List Nat) (h : dictGet? pid votes = none) :
    dictGet? pid (recordAnswer votes pid name ids) = some [(name, ids)]
    ∧ (name ∈ (summarize (recordAnswer votes pid name ids) pid).playing ↔ 0 ∈ ids)
    ∧ (name ∈ (summarize (recordAnswer votes pid name ids) pid).notPlaying ↔ 1 ∈ ids)
    ∧ (name ∈ (summarize (recordAnswer votes pid name ids) pid).fiftyFifty ↔ 2 ∈ ids) := by
  have hdata : dictGet? pid (recordAnswer votes pid name ids) = some [(name, ids)] := by
    rw [dictGet?_recordAnswer_self, h]
    simp [dictInsert]
  have hb : BallotWF ((dictGet? pid (recordAnswer votes pid name ids)).getD []) := by
    rw [hdata]
    simp [BallotWF]
  refine ⟨hdata, ?_, ?_, ?_⟩
  · rw [mem_summarize_playing _ _ _ hb, dictGet?_ballot_recordAnswer_self]
    simp
  · rw [mem_summarize_notPlaying _ _ _ hb, dictGet?_ballot_recordAnswer_self]
    simp
  · rw [mem_summarize_fiftyFifty _ _ _ hb, dictGet?_ballot_recordAnswer_self]
    simp

theorem recordAnswer_implicit_creation_witness :
    "Dan" ∈ (summarize (recordAnswer [] "p2" "Dan" [0]) "p2").playing ↔ 0 ∈ [0] :=
  (recordAnswer_implicit_creation [] "p2" "Dan" [0] rfl).2.1

/-- C6: the rendered summary text is deterministic and decomposes into the
header line followed by the three category lines in the fixed order
playing → notPlaying → fiftyFifty, each category line being the category
label, the count, and the comma-joined sorted names of `summarize`, with the
literal "nobody" placeholder ("никто") replacing the name list when the
category is empty. -/
theorem build_summary_text_structure (votes : Votes) (pid : String) :
    build_summary_text votes pid =
      String.intercalate "\n"
        [ summaryHeader
        , categoryLine "✅ Играют" (summarize votes pid).playing
        , categoryLine "❌ Не играют" (summarize votes pid).notPlaying
        , categoryLine "🤷 50/50" (summarize votes pid).fiftyFifty ] := by
  rfl

/-- C7: in every state reachable from the initial state by the core's
operations (chat binding, poll creation, answer recording, summary request),
once `latest_poll_id` is set it is a key present in the vote ledger. -/
theorem reachable_latest_poll_in_ledger (st : BotState) (h : Reachable st)
    (pid : String) (hset : st.settings.latest_poll_id = some pid) :
    (dictGet? pid st.votes).isSome = true :=
  latestInLedger_of_reachable h pid hset

theorem reachable_latest_poll_in_ledger_witness :
    (dictGet? "p1" (create_poll initState (some 1) none "p1").votes).isSome = true :=
  reachable_latest_poll_in_ledger _
    (Relation.ReflTransGen.single (Step.createPoll initState (some 1) none "p1"))
    "p1" rfl

/-- C8: when a summary is requested, a destination resolves, and
`latest_poll_id` is unset, the operation sends the user-visible "no data yet"
plain message to the destination and does not send a rendered summary (no
HTML summary message is produced). -/
theorem post_summary_no_data (st : BotState) (chatId env : Option Int) (c : Int)
    (hres : resolveTarget chatId st.settings.group_chat_id env = some c)
    (hnone : st.settings.latest_poll_id = none) :
    post_summary st chatId env = SentMessage.plain c noDataText
    ∧ ∀ ch text, post_summary st chatId env ≠ SentMessage.html ch text := by
  have h1 : post_summary st chatId env = SentMessage.plain c noDataText := by
    unfold post_summary
    rw [hres, hnone]
  refine ⟨h1, ?_⟩
  intro ch text hcontra
  rw [h1] at hcontra
  exact SentMessage.noConfusion hcontra

theorem post_summary_no_data_witness :
    post_summary
      { settings := { group_chat_id := some 5, latest_poll_id := none }, votes := [] }
      none none = SentMessage.plain 5 noDataText :=
  (post_summary_no_data
    { settings := { group_chat_id := some 5, latest_poll_id := none }, votes := [] }
    none none 5 (by decide) rfl).1

/-- C9, counterexample: the claim that the destination (with no explicit chat
override) is the bound group chat identifier whenever one is set is false:
with the bound identifier set to 0 (an integer, hence "set", but falsy in the
code's or-chain) and the environment default 7, the code resolves to 7, not
to the bound identifier. -/
theorem resolveTarget_bound_counterexample :
    ¬ ∀ (group env : Option Int) (g : Int),
        group = some g → resolveTarget none group env = some g := by
  intro hclaim
  exact absurd (hclaim (some 0) (some 7) 0 rfl) (by decide)

/-- C9, amended: with no explicit chat override, the destination is the bound
group chat identifier when it is set to a nonzero value, and it falls back to
the externally supplied environment default exactly when the bound identifier
is unset or set to 0 (both falsy in the code's or-chain). -/
theorem resolveTarget_bound_or_fallback (group env : Option Int) :
    (∀ g : Int, group = some g → g ≠ 0 → resolveTarget none group env = some g)
    ∧ ((group = none ∨ group = some 0) →
        resolveTarget none group env = resolveTarget none none env) := by
  constructor
  · rintro g rfl hg
    simp [resolveTarget, intTruthy, hg]
  · rintro (rfl | rfl) <;> simp [resolveTarget, intTruthy]

theorem resolveTarget_bound_or_fallback_witness :
    resolveTarget none (some 5) (some 7) = some 5 :=
  (resolveTarget_bound_or_fallback (some 5) (some 7)).1 5 rfl (by decide)

/-- C10: the frame property of answer recording: `recordAnswer` leaves the
entry of every other poll id unchanged, leaves the ballot of every other
voter within the written poll's entry unchanged, and writes exactly the
`(pollId, voter)` ballot. -/
theorem recordAnswer_frame (votes : Votes) (pid name : String) (ids : List Nat)
    (q v : String) (hq : q ≠ pid) (hv : v ≠ name) :
    dictGet? q (recordAnswer votes pid name ids) = dictGet? q votes
    ∧ dictGet? v ((dictGet? pid (recordAnswer votes pid name ids)).getD [])
        = dictGet? v ((dictGet? pid votes).getD [])
    ∧ dictGet? name ((dictGet? pid (recordAnswer votes pid name ids)).getD [])
        = some ids := by
  refine ⟨dictGet?_dictInsert_ne _ _ _ _ hq, ?_, dictGet?_ballot_recordAnswer_self ..⟩
  rw [dictGet?_recordAnswer_self]
  simp only [Option.getD_some]
  exact dictGet?_dictInsert_ne _ _ _ _ hv

theorem recordAnswer_frame_witness :
    dictGet? "q1" (recordAnswer [("q1", [("Eve", [1])])] "p1" "Dan" [0])
        = dictGet? "q1" [("q1", [("Eve", [1])])]
    ∧ dictGet? "Eve"
        ((dictGet? "p1" (recordAnswer [("q1", [("Eve", [1])])] "p1" "Dan" [0])).getD [])
        = dictGet? "Eve" ((dictGet? "p1" [("q1", [("Eve", [1])])]).getD [])
    ∧ dictGet? "Dan"
        ((dictGet? "p1" (recordAnswer [("q1", [("Eve", [1])])] "p1" "Dan" [0])).getD [])
        = some [0] :=
  recordAnswer_frame [("q1", [("Eve", [1])])] "p1" "Dan" [0] "q1" "Eve"
    (by decide) (by decide)

end PollBot
